import Mathlib

/-
Verification of bin/build_config_map.py (Punderthings/SchemaUtils).

The script scans a directory of Markdown files with YAML frontmatter,
extracts a requested subset of frontmatter fields from each file, and
emits an aggregated mapping.  We shallowly embed the script here:

  * YAML values decoded by yaml.safe_load are modelled by `YamlValue`;
    the decoder itself is an external library, so every definition takes
    a `decode` function as a parameter.
  * Python dictionaries (insertion ordered) are association lists over
    `String` keys (`Record`), with `dictInsert` giving the update
    semantics of `d[k] = v`.
  * Python exceptions are `Except String`; the `try ... except` block of
    `parse_frontmatter` is the totalising wrapper around
    `parse_frontmatter_body`.
  * The filesystem is a list of `FileEntry` (name plus the outcome of
    reading the file).  Standard output and the diagnostic stream are
    lists of printed lines.
  * Message texts follow the script; quote characters inside Python
    message templates are dropped.
-/

namespace SchemaUtils

/-- A YAML value as produced by yaml.safe_load: null, booleans, integers,
strings, sequences and (string-keyed) mappings. -/
inductive YamlValue where
  | null
  | bool (b : Bool)
  | int (n : Int)
  | str (s : String)
  | list (xs : List YamlValue)
  | map (kvs : List (String × YamlValue))

/-- A Python dict from field names to YAML values, as an insertion-ordered
association list. -/
abbrev Record := List (String × YamlValue)

/-- Python equality test between a string and an arbitrary value (used by
the membership test on sequences): a str compares equal only to an equal
str, and unequal to values of other types without raising. -/
def pyEqStr (field : String) : YamlValue → Bool
  | .str s => field == s
  | _ => false

/-- Key membership in a dict. -/
def keyMem (field : String) (kvs : Record) : Bool :=
  kvs.any (fun kv => kv.1 == field)

/-- First binding of a key in a dict (dict keys are unique, so first
binding is the binding); defaults to null on a missing key. -/
def dictGet (kvs : Record) (k : String) : YamlValue :=
  match kvs.find? (fun kv => kv.1 == k) with
  | some kv => kv.2
  | none => .null

/-- Containment of one character list inside another (Python substring
test, with the empty needle contained everywhere). -/
def charsContain (needle : List Char) : List Char → Bool
  | [] => needle.isEmpty
  | c :: rest => needle.isPrefixOf (c :: rest) || charsContain needle rest

/-- Python `needle in hay` on strings: substring containment. -/
def strContains (hay needle : String) : Bool :=
  charsContain needle.toList hay.toList

/-- Python `field in data` for a str field: key membership on dicts,
element equality on lists, substring containment on strings, and a
TypeError on null, bool and int. -/
def pyIn (field : String) : YamlValue → Except String Bool
  | .map kvs => .ok (keyMem field kvs)
  | .list xs => .ok (xs.any (pyEqStr field))
  | .str s => .ok (strContains s field)
  | .null => .error ("argument of type NoneType is not iterable")
  | .bool _ => .error ("argument of type bool is not iterable")
  | .int _ => .error ("argument of type int is not iterable")

/-- Python `data[field]` for a str field: dict lookup on dicts, a
TypeError on every other shape.  In the script it is only reached after
`field in data` succeeded. -/
def pyIndex (field : String) : YamlValue → Except String YamlValue
  | .map kvs =>
    match kvs.find? (fun kv => kv.1 == field) with
    | some kv => .ok kv.2
    | none => .error ("KeyError")
  | .list _ => .error ("list indices must be integers or slices, not str")
  | .str _ => .error ("string indices must be integers")
  | .null => .error ("NoneType object is not subscriptable")
  | .bool _ => .error ("bool object is not subscriptable")
  | .int _ => .error ("int object is not subscriptable")

/-- Python dict assignment `d[k] = v`: overwrite in place when the key is
present, append otherwise. -/
def dictInsert (k : String) (v : YamlValue) (d : Record) : Record :=
  if keyMem k d then d.map (fun kv => if kv.1 == k then (k, v) else kv)
  else d ++ [(k, v)]

/-- The field-copying loop of parse_frontmatter:
for field in field_list: if field in data: return_hash[field] = data[field].
A raised TypeError aborts the loop. -/
def extractFieldsGo (data : YamlValue) : List String → Record → Except String Record
  | [], return_hash => .ok return_hash
  | field :: rest, return_hash =>
    match pyIn field data with
    | .error e => .error e
    | .ok b =>
      if b then
        match pyIndex field data with
        | .error e => .error e
        | .ok v => extractFieldsGo data rest (dictInsert field v return_hash)
      else
        extractFieldsGo data rest return_hash

/-- The loop run from an empty return_hash. -/
def extractFields (field_list : List String) (data : YamlValue) : Except String Record :=
  extractFieldsGo data field_list []

/-- YAML_SEPARATOR = the literal string three hyphens; content.split splits
on every occurrence of this substring. -/
def YAML_SEPARATOR : String := "---"

/-- The worker of pySplit: scan the characters, cutting a segment at every
occurrence of the (non-empty) separator, like Python str.split.  Each step
consumes at least one character, so fuel equal to the input length is
enough; the fuel-exhaustion branch is unreachable then. -/
def splitLoop (sep : List Char) : Nat → List Char → List Char → List (List Char)
  | _, [], acc => [acc.reverse]
  | 0, cs, acc => [acc.reverse ++ cs]
  | fuel + 1, c :: rest, acc =>
    if sep.isPrefixOf (c :: rest) then
      acc.reverse :: splitLoop sep fuel (List.drop sep.length (c :: rest)) []
    else
      splitLoop sep fuel rest (c :: acc)

/-- Python content.split(sep) for a non-empty separator: split on every
occurrence of the separator substring, keeping empty segments. -/
def pySplit (s sep : String) : List String :=
  (splitLoop sep.data s.data.length s.data []).map String.mk

/-- Python str.strip(): drop whitespace from both ends. -/
def pyStrip (s : String) : String :=
  String.mk (((s.data.dropWhile Char.isWhitespace).reverse.dropWhile
    Char.isWhitespace).reverse)

/-- The WARN diagnostic printed for a file without a leading frontmatter
block. -/
def warnLine (fileName : String) : String :=
  "WARN: Skipping " ++ fileName ++ ": No frontmatter found."

/-- The ERROR diagnostic printed by the except-branch of
parse_frontmatter, with e the text of the caught exception. -/
def errorLine (fileName e : String) : String :=
  "ERROR: file read or missing fields " ++ fileName ++ ": " ++ e

/-- The body of parse_frontmatter inside the try-block: read the file,
split on the separator, check the shape, decode segment 1, copy the
requested fields.  An `Except.error` is a raised exception. -/
def parse_frontmatter_body (decode : String → Except String YamlValue)
    (readResult : Except String String) (fileName : String)
    (field_list : List String) : Except String (Option Record × List String) :=
  match readResult with
  | .error e => .error e
  | .ok content =>
    let parts := pySplit content YAML_SEPARATOR
    if parts.length < 3 ∨ pyStrip (parts.headD ("")) ≠ ("") then
      .ok (none, [warnLine fileName])
    else
      match decode (parts.getD 1 ("")) with
      | .error e => .error e
      | .ok data =>
        match extractFields field_list data with
        | .error e => .error e
        | .ok return_hash =>
          if return_hash.isEmpty then .ok (none, [])
          else .ok (some return_hash, [])

/-- parse_frontmatter: the body wrapped in try/except.  Returns the
optional extracted record and the list of lines printed to stderr. -/
def parse_frontmatter (decode : String → Except String YamlValue)
    (readResult : Except String String) (fileName : String)
    (field_list : List String) : Option Record × List String :=
  match parse_frontmatter_body decode readResult fileName field_list with
  | .ok r => r
  | .error e => (none, [errorLine fileName e])

instance instDecEqExcept {ε α : Type} [DecidableEq ε] [DecidableEq α] :
    DecidableEq (Except ε α) := fun a b =>
  match a, b with
  | .error e₁, .error e₂ =>
    if h : e₁ = e₂ then .isTrue (by rw [h]) else .isFalse (by simp [h])
  | .error _, .ok _ => .isFalse (by simp)
  | .ok _, .error _ => .isFalse (by simp)
  | .ok v₁, .ok v₂ =>
    if h : v₁ = v₂ then .isTrue (by rw [h]) else .isFalse (by simp [h])

/-- One directory entry: its filename and the outcome of reading its
content (an `Except.error` is a raised read exception). -/
structure FileEntry where
  name : String
  readResult : Except String String
deriving DecidableEq

/-- Suffix test on strings (fnmatch of the pattern star-dot-md). -/
def strEndsWith (s post : String) : Bool := post.data.isSuffixOf s.data

/-- scanpath.glob of star-dot-md: the entries whose name ends in ".md". -/
def globMd (entries : List FileEntry) : List FileEntry :=
  entries.filter (fun e => strEndsWith e.name (".md"))

/-- Lexicographic comparison of character lists by code point, the order
Python uses to compare strings. -/
def charsLe : List Char → List Char → Bool
  | [], _ => true
  | _ :: _, [] => false
  | a :: as, b :: bs => if a = b then charsLe as bs else decide (a < b)

/-- Comparison used by sorted(...) on paths of one directory: the
code-point lexicographic order on the filename. -/
def entryLe (a b : FileEntry) : Prop := charsLe a.name.data b.name.data = true

instance : DecidableRel entryLe :=
  fun a b => inferInstanceAs (Decidable (charsLe a.name.data b.name.data = true))

/-- sorted(scanpath.glob(...)): the matched entries in ascending filename
order (a stable sort, like Python sorted). -/
def sortedMd (entries : List FileEntry) : List FileEntry :=
  List.insertionSort entryLe (globMd entries)

/-- One iteration of the loop of parse_dir: run parse_frontmatter on a
file and append the record to all_data when it is truthy (a non-empty
dict); stderr lines accumulate. -/
def scanStep (decode : String → Except String YamlValue)
    (field_list : List String) (acc : List Record × List String)
    (e : FileEntry) : List Record × List String :=
  match parse_frontmatter decode e.readResult e.name field_list with
  | (some data, errs) =>
    if data.isEmpty then (acc.1, acc.2 ++ errs)
    else (acc.1 ++ [data], acc.2 ++ errs)
  | (none, errs) => (acc.1, acc.2 ++ errs)

/-- The informational notice printed on standard output when no records
were collected. -/
def noticeLine : String := "No valid Jekyll posts with relevant fields found."

/-- parse_dir: although it receives a directory parameter `file_path`,
the loop reads the outer-scope variable `scanpath` (both are modelled as
parameters here, `scanpath` standing for the module-level variable).
Returns the optional config-map value, the lines printed to standard
output, and the lines printed to stderr. -/
def parse_dir (decode : String → Except String YamlValue)
    (file_path : List FileEntry) (scanpath : List FileEntry)
    (field_list : List String) :
    Option (List Record) × List String × List String :=
  let folded := (sortedMd scanpath).foldl (scanStep decode field_list) ([], [])
  if folded.1.isEmpty then
    (none, [noticeLine], folded.2)
  else
    (some folded.1, [], folded.2)

/-- Modelled from pyyaml: yaml.dump(None) is the YAML document
"null\n...\n"; the rendering of a non-null config map is not needed by
any claim and is abstracted as the dumpSome parameter. -/
def yaml_dump (dumpSome : List Record → String) : Option (List Record) → String
  | none => "null\n...\n"
  | some recs => dumpSome recs

/-- The script body under the main guard: directory check (dirLookup is
none when the path is not an existing directory), the parse_dir call with
scanpath both as argument and as the module-level variable, and the
unconditional print of yaml.dump(output).  Returns the exit status, the
standard-output lines and the stderr lines. -/
def mainRun (decode : String → Except String YamlValue)
    (dumpSome : List Record → String)
    (dirLookup : Option (List FileEntry)) (dirName : String)
    (fields : List String) : Nat × List String × List String :=
  match dirLookup with
  | none => (1, [], ["ERROR: path " ++ dirName ++ " is not valid dir."])
  | some entries =>
    let r := parse_dir decode entries entries fields
    (0, r.2.1 ++ [yaml_dump dumpSome r.1], r.2.2)

/-- Append a key to an ordered key set when it is new (how the key list of
a Python dict grows under assignment). -/
def insNew (acc : List String) (f : String) : List String :=
  if f ∈ acc then acc else acc ++ [f]

/-- The keys of the record built by the field loop over a decoded mapping:
the requested fields that occur in the mapping, in request order, first
occurrence kept. -/
def matchedKeys (field_list : List String) (kvs : Record) : List String :=
  (field_list.filter (fun f => keyMem f kvs)).foldl insNew []

/-- Shape test for mappings. -/
def YamlValue.isMap : YamlValue → Bool
  | .map _ => true
  | _ => false

/-- Whether the field loop raises a TypeError on non-mapping data: always
for null, bool and int once a field is requested; for a string when some
requested field occurs as a substring; for a sequence when some requested
field equals an element. -/
def nonMapRaises (field_list : List String) : YamlValue → Bool
  | .null => !field_list.isEmpty
  | .bool _ => !field_list.isEmpty
  | .int _ => !field_list.isEmpty
  | .str s => field_list.any (fun f => strContains s f)
  | .list xs => field_list.any (fun f => xs.any (pyEqStr f))
  | .map _ => false

/-- The record a single file contributes to all_data (none when the file
is skipped or its record is falsy). -/
def fileRecord (decode : String → Except String YamlValue)
    (field_list : List String) (e : FileEntry) : Option Record :=
  match parse_frontmatter decode e.readResult e.name field_list with
  | (some data, _) => if data.isEmpty then none else some data
  | (none, _) => none

/-- The stderr lines a single file contributes to the scan. -/
def fileDiags (decode : String → Except String YamlValue)
    (field_list : List String) (e : FileEntry) : List String :=
  (parse_frontmatter decode e.readResult e.name field_list).2

/-- A fixture file content with a well-formed frontmatter block. -/
def contentFM : String := "---\nfm\n---\nbody"

/-- A fixture decoder returning a two-key mapping (alpha before beta). -/
def decodeAB : String → Except String YamlValue :=
  fun _ => .ok (.map [("alpha", .str ("x")), ("beta", .str ("y"))])

/-- A fixture decoder returning a one-key mapping. -/
def decodeTitle : String → Except String YamlValue :=
  fun _ => .ok (.map [("title", .str ("t"))])

/-- A fixture decoder returning the YAML scalar string "hello". -/
def decodeHello : String → Except String YamlValue :=
  fun _ => .ok (.str ("hello"))

/-- A fixture decoder returning YAML null (what yaml.safe_load gives for
an empty or comment-only block). -/
def decodeNull : String → Except String YamlValue :=
  fun _ => .ok .null

/-- Fixture directory entries. -/
def entryA : FileEntry := ⟨"a.md", .ok contentFM⟩

/-- A second fixture entry whose filename sorts after entryA. -/
def entryB : FileEntry := ⟨"b.md", .ok contentFM⟩

/-- A fixture entry whose read raises. -/
def entryBad : FileEntry := ⟨"z.md", .error ("Errno 2 No such file or directory")⟩

/-- A fixture rendering for the non-null branch of yaml_dump (never
consulted by the empty-result claims). -/
def dumpStub : List Record → String := fun _ => ""

theorem charsLe_total (as bs : List Char) : charsLe as bs = true ∨ charsLe bs as = true := by
  induction as generalizing bs with
  | nil => exact .inl rfl
  | cons a as ih =>
    cases bs with
    | nil => exact .inr rfl
    | cons b bs =>
      by_cases hab : a = b
      · subst hab
        simpa [charsLe] using ih bs
      · rcases lt_or_gt_of_ne hab with h | h
        · exact .inl (by simp [charsLe, hab, h])
        · refine .inr (by simp [charsLe, Ne.symm hab, h, not_lt_of_gt h])

theorem charsLe_trans {as bs cs : List Char} (h₁ : charsLe as bs = true)
    (h₂ : charsLe bs cs = true) : charsLe as cs = true := by
  induction as generalizing bs cs with
  | nil => rfl
  | cons a as ih =>
    cases bs with
    | nil => simp [charsLe] at h₁
    | cons b bs =>
      cases cs with
      | nil => simp [charsLe] at h₂
      | cons c cs =>
        by_cases hab : a = b
        · subst hab
          by_cases hac : a = c
          · subst hac
            simp only [charsLe, if_pos rfl] at h₁ h₂ ⊢
            exact ih h₁ h₂
          · by_cases hbc : a = c
            · exact absurd hbc hac
            · simp only [charsLe, if_neg hac, decide_eq_true_eq]
              simp only [charsLe, if_neg hac, decide_eq_true_eq] at h₂
              exact h₂
        · by_cases hbc : b = c
          · subst hbc
            simpa [charsLe, hab] using h₁
          · simp only [charsLe, if_neg hab, decide_eq_true_eq] at h₁
            simp only [charsLe, if_neg hbc, decide_eq_true_eq] at h₂
            have hac : a < c := lt_trans h₁ h₂
            simp [charsLe, ne_of_lt hac, hac]

theorem charsLe_antisymm {as bs : List Char} (h₁ : charsLe as bs = true)
    (h₂ : charsLe bs as = true) : as = bs := by
  induction as generalizing bs with
  | nil =>
    cases bs with
    | nil => rfl
    | cons b bs => simp [charsLe] at h₂
  | cons a as ih =>
    cases bs with
    | nil => simp [charsLe] at h₁
    | cons b bs =>
      by_cases hab : a = b
      · subst hab
        simp only [charsLe, if_pos rfl] at h₁ h₂
        exact congrArg (a :: ·) (ih h₁ h₂)
      · simp only [charsLe, if_neg hab, decide_eq_true_eq] at h₁
        simp only [charsLe, if_neg (Ne.symm hab), decide_eq_true_eq] at h₂
        exact absurd h₂ (not_lt_of_gt h₁)

theorem pyIndex_map_of_keyMem {f : String} {kvs : Record} (h : keyMem f kvs = true) :
    pyIndex f (.map kvs) = .ok (dictGet kvs f) := by
  cases hf : kvs.find? (fun kv => kv.1 == f) with
  | some kv => simp [pyIndex, dictGet, hf]
  | none =>
    exfalso
    rw [List.find?_eq_none] at hf
    rcases List.any_eq_true.mp h with ⟨kv, hmem, hbeq⟩
    exact hf kv hmem hbeq

theorem keyMem_pairing {kvs : Record} {ks : List String} {f : String} :
    keyMem f (ks.map (fun k => (k, dictGet kvs k))) = true ↔ f ∈ ks := by
  simp only [keyMem, List.any_eq_true, List.mem_map]
  constructor
  · rintro ⟨p, ⟨k, hk, hpk⟩, he⟩
    have h1 : p.1 = f := by simpa using he
    rw [← hpk] at h1
    exact h1 ▸ hk
  · intro hf
    exact ⟨(f, dictGet kvs f), ⟨f, hf, rfl⟩, by simp⟩

theorem dictInsert_canon (kvs : Record) (ks : List String) (f : String) :
    dictInsert f (dictGet kvs f) (ks.map (fun k => (k, dictGet kvs k))) =
      (insNew ks f).map (fun k => (k, dictGet kvs k)) := by
  by_cases hf : f ∈ ks
  · rw [dictInsert, insNew, if_pos (keyMem_pairing.mpr hf), if_pos hf, List.map_map]
    apply List.map_congr_left
    intro k hk
    by_cases hkf : k = f
    · subst hkf
      simp
    · simp [hkf]
  · rw [dictInsert, insNew, if_neg (fun h => hf (keyMem_pairing.mp h)), if_neg hf,
      List.map_append]
    simp

theorem extractFieldsGo_map (kvs : Record) :
    ∀ (fl ks : List String),
      extractFieldsGo (.map kvs) fl (ks.map (fun k => (k, dictGet kvs k))) =
        .ok (((fl.filter (fun f => keyMem f kvs)).foldl insNew ks).map
          (fun k => (k, dictGet kvs k))) := by
  intro fl
  induction fl with
  | nil => intro ks; rfl
  | cons f rest ih =>
    intro ks
    cases hf : keyMem f kvs with
    | false =>
      simp only [extractFieldsGo, pyIn, hf, List.filter_cons, Bool.false_eq_true,
        ite_false]
      exact ih ks
    | true =>
      simp only [extractFieldsGo, pyIn, hf, pyIndex_map_of_keyMem hf,
        dictInsert_canon kvs ks f, List.filter_cons, ite_true, List.foldl_cons]
      exact ih (insNew ks f)

theorem extractFields_map_eq (fl : List String) (kvs : Record) :
    extractFields fl (.map kvs) =
      .ok ((matchedKeys fl kvs).map (fun k => (k, dictGet kvs k))) := by
  have h := extractFieldsGo_map kvs fl []
  simpa [extractFields, matchedKeys] using h

theorem mem_foldl_insNew (a : String) :
    ∀ (l acc : List String), a ∈ l.foldl insNew acc ↔ a ∈ acc ∨ a ∈ l := by
  intro l
  induction l with
  | nil => simp
  | cons f rest ih =>
    intro acc
    rw [List.foldl_cons, ih]
    have hins : a ∈ insNew acc f ↔ a ∈ acc ∨ a = f := by
      unfold insNew
      by_cases hf : f ∈ acc
      · rw [if_pos hf]
        constructor
        · exact .inl
        · rintro (h | h)
          · exact h
          · exact h ▸ hf
      · rw [if_neg hf]
        simp
    rw [hins, List.mem_cons]
    tauto

theorem mem_matchedKeys {fl : List String} {kvs : Record} {k : String} :
    k ∈ matchedKeys fl kvs ↔ k ∈ fl ∧ keyMem k kvs = true := by
  rw [matchedKeys, mem_foldl_insNew]
  simp [List.mem_filter]

theorem keyMem_iff {f : String} {kvs : Record} :
    keyMem f kvs = true ↔ ∃ v, (f, v) ∈ kvs := by
  simp only [keyMem, List.any_eq_true, beq_iff_eq]
  constructor
  · rintro ⟨⟨k, v⟩, hmem, hk⟩
    exact ⟨v, by rwa [show k = f from hk] at hmem⟩
  · rintro ⟨v, hv⟩
    exact ⟨(f, v), hv, rfl⟩

theorem find?_eq_of_mem_nodup {kvs : Record} (hnd : (kvs.map Prod.fst).Nodup)
    {k : String} {v : YamlValue} (h : (k, v) ∈ kvs) :
    kvs.find? (fun kv => kv.1 == k) = some (k, v) := by
  induction kvs with
  | nil => cases h
  | cons p rest ih =>
    rw [List.map_cons, List.nodup_cons] at hnd
    rcases List.mem_cons.mp h with he | hr
    · rw [← he]
      exact List.find?_cons_of_pos rest (by simp)
    · have hp : (p.1 == k) = false := by
        rw [beq_eq_false_iff_ne]
        intro hpk
        exact hnd.1 (hpk ▸ List.mem_map.mpr ⟨(k, v), hr, rfl⟩)
      rw [List.find?_cons_of_neg rest (by simp [hp]), ih hnd.2 hr]

theorem dictGet_eq_of_mem_nodup {kvs : Record} (hnd : (kvs.map Prod.fst).Nodup)
    {k : String} {v : YamlValue} (h : (k, v) ∈ kvs) : dictGet kvs k = v := by
  rw [dictGet, find?_eq_of_mem_nodup hnd h]

theorem parse_frontmatter_okSplit (decode : String → Except String YamlValue)
    (content fileName : String) (fl : List String)
    (h3 : 3 ≤ (pySplit content YAML_SEPARATOR).length)
    (h0 : pyStrip ((pySplit content YAML_SEPARATOR).headD ("")) = ("")) :
    parse_frontmatter decode (.ok content) fileName fl =
      (match decode ((pySplit content YAML_SEPARATOR).getD 1 ("")) with
      | .error e => (none, [errorLine fileName e])
      | .ok data =>
        match extractFields fl data with
        | .error e => (none, [errorLine fileName e])
        | .ok rh => if rh.isEmpty then (none, []) else (some rh, [])) := by
  have hcond : ¬((pySplit content YAML_SEPARATOR).length < 3 ∨
      pyStrip ((pySplit content YAML_SEPARATOR).headD ("")) ≠ ("")) := by
    push_neg
    exact ⟨h3, h0⟩
  cases hdec : decode ((pySplit content YAML_SEPARATOR).getD 1 ("")) with
  | error e =>
    simp only [parse_frontmatter, parse_frontmatter_body, if_neg hcond, hdec]
  | ok data =>
    cases hex : extractFields fl data with
    | error e =>
      simp only [parse_frontmatter, parse_frontmatter_body, if_neg hcond, hdec, hex]
    | ok rh =>
      by_cases hrh : rh.isEmpty <;>
        simp only [parse_frontmatter, parse_frontmatter_body, if_neg hcond, hdec, hex,
          hrh, ite_true, ite_false, Bool.false_eq_true, if_false, if_true]

theorem extractFieldsGo_nonmap {data : YamlValue} (hnm : data.isMap = false)
    (fl : List String) (acc : Record) :
    (nonMapRaises fl data = true → ∃ e, extractFieldsGo data fl acc = .error e) ∧
    (nonMapRaises fl data = false → extractFieldsGo data fl acc = .ok acc) := by
  induction fl generalizing acc with
  | nil =>
    cases data <;> simp [nonMapRaises, extractFieldsGo] at hnm ⊢
  | cons f rest ih =>
    cases data with
    | map kvs => cases hnm
    | null =>
      refine ⟨fun _ => ⟨("argument of type NoneType is not iterable"), ?_⟩,
        fun h => by cases h⟩
      simp [extractFieldsGo, pyIn]
    | bool b =>
      refine ⟨fun _ => ⟨("argument of type bool is not iterable"), ?_⟩,
        fun h => by cases h⟩
      simp [extractFieldsGo, pyIn]
    | int n =>
      refine ⟨fun _ => ⟨("argument of type int is not iterable"), ?_⟩,
        fun h => by cases h⟩
      simp [extractFieldsGo, pyIn]
    | str s =>
      constructor
      · intro hr
        cases hc : strContains s f with
        | true =>
          exact ⟨("string indices must be integers"),
            by simp [extractFieldsGo, pyIn, pyIndex, hc]⟩
        | false =>
          have hrest : nonMapRaises rest (.str s) = true := by
            simpa [nonMapRaises, hc] using hr
          rcases (ih acc).1 hrest with ⟨e, he⟩
          exact ⟨e, by simpa [extractFieldsGo, pyIn, hc] using he⟩
      · intro hr
        have hc : strContains s f = false := by
          by_contra hc
          simp only [Bool.not_eq_false] at hc
          simp [nonMapRaises, hc] at hr
        have hrest : nonMapRaises rest (.str s) = false := by
          simpa [nonMapRaises, hc] using hr
        simpa [extractFieldsGo, pyIn, hc] using (ih acc).2 hrest
    | list xs =>
      constructor
      · intro hr
        cases hc : xs.any (pyEqStr f) with
        | true =>
          exact ⟨("list indices must be integers or slices, not str"),
            by simp [extractFieldsGo, pyIn, pyIndex, hc]⟩
        | false =>
          have hrest : nonMapRaises rest (.list xs) = true := by
            simpa [nonMapRaises, hc] using hr
          rcases (ih acc).1 hrest with ⟨e, he⟩
          exact ⟨e, by simpa [extractFieldsGo, pyIn, hc] using he⟩
      · intro hr
        have hc : xs.any (pyEqStr f) = false := by
          by_contra hc
          simp only [Bool.not_eq_false] at hc
          simp [nonMapRaises, hc] at hr
        have hrest : nonMapRaises rest (.list xs) = false := by
          simpa [nonMapRaises, hc] using hr
        simpa [extractFieldsGo, pyIn, hc] using (ih acc).2 hrest

theorem scanStep_eq (decode : String → Except String YamlValue)
    (fl : List String) (racc : List Record) (eacc : List String) (e : FileEntry) :
    scanStep decode fl (racc, eacc) e =
      (match fileRecord decode fl e with
      | some d => racc ++ [d]
      | none => racc, eacc ++ fileDiags decode fl e) := by
  unfold scanStep fileRecord fileDiags
  rcases hp : parse_frontmatter decode e.readResult e.name fl with ⟨r, errs⟩
  cases r with
  | none => rfl
  | some data =>
    by_cases hd : data.isEmpty <;> simp [hd]

theorem foldl_scanStep (decode : String → Except String YamlValue)
    (fl : List String) :
    ∀ (l : List FileEntry) (racc : List Record) (eacc : List String),
      l.foldl (scanStep decode fl) (racc, eacc) =
        (racc ++ l.filterMap (fileRecord decode fl),
         eacc ++ (l.map (fileDiags decode fl)).flatten) := by
  intro l
  induction l with
  | nil => simp
  | cons e rest ih =>
    intro racc eacc
    rw [List.foldl_cons, scanStep_eq]
    cases hfr : fileRecord decode fl e with
    | none =>
      rw [ih]
      simp [List.filterMap_cons, hfr]
    | some d =>
      rw [ih]
      simp [List.filterMap_cons, hfr]

theorem parse_dir_eq (decode : String → Except String YamlValue)
    (fp sc : List FileEntry) (fl : List String) :
    parse_dir decode fp sc fl =
      (if ((sortedMd sc).filterMap (fileRecord decode fl)).isEmpty then
        (none, [noticeLine], ((sortedMd sc).map (fileDiags decode fl)).flatten)
      else
        (some ((sortedMd sc).filterMap (fileRecord decode fl)), [],
          ((sortedMd sc).map (fileDiags decode fl)).flatten)) := by
  unfold parse_dir
  rw [foldl_scanStep]
  simp

theorem sortedMd_sorted (entries : List FileEntry) : (sortedMd entries).Sorted entryLe := by
  haveI : IsTotal FileEntry entryLe := ⟨fun a b => charsLe_total a.name.data b.name.data⟩
  haveI : IsTrans FileEntry entryLe := ⟨fun _ _ _ h₁ h₂ => charsLe_trans h₁ h₂⟩
  exact List.sorted_insertionSort entryLe (globMd entries)

theorem sortedMd_perm (entries : List FileEntry) :
    (sortedMd entries).Perm (globMd entries) :=
  List.perm_insertionSort entryLe (globMd entries)

theorem entryLe_antisymm_name {a b : FileEntry} (h₁ : entryLe a b) (h₂ : entryLe b a) :
    a.name = b.name := by
  apply String.ext
  exact charsLe_antisymm h₁ h₂

theorem sorted_perm_nodup_eq :
    ∀ {l₁ l₂ : List FileEntry}, l₁.Perm l₂ → l₁.Sorted entryLe →
      l₂.Sorted entryLe → (l₁.map FileEntry.name).Nodup → l₁ = l₂ := by
  intro l₁
  induction l₁ with
  | nil =>
    intro l₂ hp _ _ _
    exact hp.nil_eq
  | cons a t₁ ih =>
    intro l₂ hp hs₁ hs₂ hnd
    cases l₂ with
    | nil => exact absurd hp.symm.nil_eq (by simp)
    | cons b t₂ =>
      rw [List.map_cons, List.nodup_cons] at hnd
      have hab : a = b := by
        have ha2 : a ∈ b :: t₂ := hp.subset (List.mem_cons_self a t₁)
        rcases List.mem_cons.mp ha2 with h | hat₂
        · exact h
        · have hb1 : b ∈ a :: t₁ := hp.symm.subset (List.mem_cons_self b t₂)
          rcases List.mem_cons.mp hb1 with h | hbt₁
          · exact h.symm
          · exfalso
            have hle₁ : entryLe a b := List.rel_of_sorted_cons hs₁ b hbt₁
            have hle₂ : entryLe b a := List.rel_of_sorted_cons hs₂ a hat₂
            have hname : a.name = b.name := entryLe_antisymm_name hle₁ hle₂
            exact hnd.1 (hname ▸ List.mem_map.mpr ⟨b, hbt₁, rfl⟩)
      subst hab
      rw [ih hp.cons_inv hs₁.of_cons hs₂.of_cons hnd.2]

theorem sortedMd_names_nodup {sc : List FileEntry}
    (hnd : (sc.map FileEntry.name).Nodup) :
    ((sortedMd sc).map FileEntry.name).Nodup := by
  have h1 : ((globMd sc).map FileEntry.name).Nodup :=
    hnd.sublist ((List.filter_sublist sc).map FileEntry.name)
  exact (((sortedMd_perm sc).map FileEntry.name).nodup_iff).mpr h1

theorem sortedMd_eq_of_perm {sc₁ sc₂ : List FileEntry} (hperm : sc₁.Perm sc₂)
    (hnd : (sc₁.map FileEntry.name).Nodup) : sortedMd sc₁ = sortedMd sc₂ := by
  apply sorted_perm_nodup_eq
  · exact (sortedMd_perm sc₁).trans ((hperm.filter _).trans (sortedMd_perm sc₂).symm)
  · exact sortedMd_sorted sc₁
  · exact sortedMd_sorted sc₂
  · exact sortedMd_names_nodup hnd

theorem errorLine_split (fileName e : String) :
    errorLine fileName e =
      "ERROR:" ++ (" file read or missing fields " ++ fileName ++ ": " ++ e) := by
  rw [errorLine, ← String.append_assoc, ← String.append_assoc, ← String.append_assoc]
  exact rfl

theorem warnLine_split (fileName : String) :
    warnLine fileName = "WARN:" ++ (" Skipping " ++ fileName ++ ": No frontmatter found.") := by
  rw [warnLine, ← String.append_assoc, ← String.append_assoc]
  exact rfl

theorem error_head_ne_warn (x y : String) : ("ERROR:" ++ x) ≠ ("WARN:" ++ y) := by
  intro h
  have hd := congrArg String.data h
  rw [String.data_append, String.data_append] at hd
  have hE : ("ERROR:" : String).data = 'E' :: "RROR:".data := rfl
  have hW : ("WARN:" : String).data = 'W' :: "ARN:".data := rfl
  rw [hE, hW, List.cons_append, List.cons_append] at hd
  exact absurd (List.cons.injEq .. ▸ hd).1 (by decide)

theorem parse_frontmatter_body_some {decode : String → Except String YamlValue}
    {rr : Except String String} {fileName : String} {fl : List String}
    {r : Record} {lines : List String}
    (h : parse_frontmatter_body decode rr fileName fl = .ok (some r, lines)) :
    r.isEmpty = false := by
  cases rr with
  | error e => simp [parse_frontmatter_body] at h
  | ok content =>
    simp only [parse_frontmatter_body] at h
    by_cases hc : (pySplit content YAML_SEPARATOR).length < 3 ∨
        pyStrip ((pySplit content YAML_SEPARATOR).headD ("")) ≠ ("")
    · rw [if_pos hc] at h
      simp at h
    · rw [if_neg hc] at h
      cases hdec : decode ((pySplit content YAML_SEPARATOR).getD 1 ("")) with
      | error e =>
        simp only [hdec] at h
        cases h
      | ok data =>
        simp only [hdec] at h
        cases hex : extractFields fl data with
        | error e =>
          simp only [hex] at h
          cases h
        | ok rh =>
          simp only [hex] at h
          cases hrh : rh.isEmpty with
          | true =>
            rw [if_pos hrh] at h
            simp at h
          | false =>
            rw [if_neg (by simp [hrh])] at h
            simp only [Except.ok.injEq, Prod.mk.injEq, Option.some.injEq] at h
            rw [← h.1]
            exact hrh

theorem parse_frontmatter_some_nonempty
    (decode : String → Except String YamlValue) (rr : Except String String)
    (fileName : String) (fl : List String) (r : Record)
    (h : (parse_frontmatter decode rr fileName fl).1 = some r) : r ≠ [] := by
  unfold parse_frontmatter at h
  cases hb : parse_frontmatter_body decode rr fileName fl with
  | error e => rw [hb] at h; cases h
  | ok p =>
    rw [hb] at h
    rcases p with ⟨opt, lines⟩
    cases opt with
    | none => cases h
    | some r₀ =>
      have : r₀ = r := by simpa using h
      subst this
      have := parse_frontmatter_body_some hb
      intro hnil
      rw [hnil] at this
      cases this

theorem fileRecord_some {decode : String → Except String YamlValue}
    {fl : List String} {e : FileEntry} {d : Record}
    (h : fileRecord decode fl e = some d) : d ≠ [] := by
  unfold fileRecord at h
  rcases hp : parse_frontmatter decode e.readResult e.name fl with ⟨opt, lines⟩
  rw [hp] at h
  cases opt with
  | none => simp at h
  | some data =>
    cases hd : data.isEmpty with
    | true => simp [hd] at h
    | false =>
      simp [hd] at h
      rw [← h]
      intro hnil
      rw [hnil] at hd
      cases hd

theorem parse_dir_records (decode : String → Except String YamlValue)
    (fp sc : List FileEntry) (fl : List String) :
    (parse_dir decode fp sc fl).1.getD [] =
      (sortedMd sc).filterMap (fileRecord decode fl) := by
  rw [parse_dir_eq]
  cases h : ((sortedMd sc).filterMap (fileRecord decode fl)).isEmpty with
  | true =>
    rw [List.isEmpty_iff] at h
    simp [h]
  | false => simp [h]

theorem parse_dir_stderr (decode : String → Except String YamlValue)
    (fp sc : List FileEntry) (fl : List String) :
    (parse_dir decode fp sc fl).2.2 =
      ((sortedMd sc).map (fileDiags decode fl)).flatten := by
  rw [parse_dir_eq]
  cases h : ((sortedMd sc).filterMap (fileRecord decode fl)).isEmpty <;> simp [h]

/-- C1: for every file with a well-formed frontmatter split whose segment
1 decodes to a mapping (with unique keys) containing at least one
requested field, parse_frontmatter returns a record equal to exactly the
requested-field subset of that mapping, with each value passed through
unchanged, and emits no diagnostic. -/
theorem claim1_extract_exact_subset
    (decode : String → Except String YamlValue) (content fileName : String)
    (fl : List String) (kvs : Record)
    (h3 : 3 ≤ (pySplit content YAML_SEPARATOR).length)
    (h0 : pyStrip ((pySplit content YAML_SEPARATOR).headD ("")) = (""))
    (hdec : decode ((pySplit content YAML_SEPARATOR).getD 1 ("")) = .ok (.map kvs))
    (hnd : (kvs.map Prod.fst).Nodup)
    (hmatch : ∃ f ∈ fl, keyMem f kvs = true) :
    ∃ r, parse_frontmatter decode (.ok content) fileName fl = (some r, []) ∧
      ∀ k v, ((k, v) ∈ r ↔ ((k, v) ∈ kvs ∧ k ∈ fl)) := by
  rw [parse_frontmatter_okSplit decode content fileName fl h3 h0]
  rcases hmatch with ⟨f, hf, hfk⟩
  have hne : matchedKeys fl kvs ≠ [] := by
    intro hnil
    have hm : f ∈ matchedKeys fl kvs := mem_matchedKeys.mpr ⟨hf, hfk⟩
    rw [hnil] at hm
    cases hm
  simp only [hdec, extractFields_map_eq]
  have hempty : ((matchedKeys fl kvs).map (fun k => (k, dictGet kvs k))).isEmpty = false := by
    cases hmk : matchedKeys fl kvs with
    | nil => exact absurd hmk hne
    | cons a t => rfl
  rw [if_neg (by simp [hempty])]
  refine ⟨_, rfl, ?_⟩
  intro k v
  constructor
  · intro hkv
    rcases List.mem_map.mp hkv with ⟨k', hk', heq⟩
    have hk1 : k' = k := congrArg Prod.fst heq
    have hk2 : dictGet kvs k' = v := congrArg Prod.snd heq
    subst hk1
    rcases mem_matchedKeys.mp hk' with ⟨hkfl, hkm⟩
    rcases keyMem_iff.mp hkm with ⟨v', hv'⟩
    have hdg : dictGet kvs k' = v' := dictGet_eq_of_mem_nodup hnd hv'
    rw [hdg] at hk2
    exact ⟨hk2 ▸ hv', hkfl⟩
  · rintro ⟨hkv, hkfl⟩
    have hkm : keyMem k kvs = true := keyMem_iff.mpr ⟨v, hkv⟩
    have hmem : k ∈ matchedKeys fl kvs := mem_matchedKeys.mpr ⟨hkfl, hkm⟩
    have hdg : dictGet kvs k = v := dictGet_eq_of_mem_nodup hnd hkv
    exact List.mem_map.mpr ⟨k, hmem, by rw [hdg]⟩

/-- C1 witness: a concrete run of the C1 theorem, on a two-key mapping
with one field requested. -/
theorem claim1_witness :
    ∃ r, parse_frontmatter decodeAB (.ok contentFM) ("a.md") ["beta"] = (some r, []) ∧
      ∀ k v, ((k, v) ∈ r ↔
        ((k, v) ∈ [("alpha", YamlValue.str ("x")), ("beta", YamlValue.str ("y"))] ∧
          k ∈ ["beta"])) :=
  claim1_extract_exact_subset decodeAB contentFM ("a.md") ["beta"]
    [("alpha", .str ("x")), ("beta", .str ("y"))]
    (by decide) (by decide) rfl (by decide)
    ⟨("beta"), by decide, by decide⟩

/-- C2 counterexample: the decoded mapping iterates [alpha, beta] but the
request list is [beta, alpha]; the returned record keys come out as
[beta, alpha] — request order — refuting the claim that they appear in
the iteration order of the decoded source mapping. -/
theorem claim2_counterexample :
    ((parse_frontmatter decodeAB (.ok contentFM) ("t.md") ["beta", "alpha"]).1.map
      (fun r => r.map Prod.fst)) = some ["beta", "alpha"] ∧
    ¬ ((parse_frontmatter decodeAB (.ok contentFM) ("t.md") ["beta", "alpha"]).1.map
      (fun r => r.map Prod.fst)) = some ["alpha", "beta"] :=
  ⟨rfl, by decide⟩

/-- C2 (amended): for every decoded frontmatter mapping, the keys of the
returned record appear in the order of first occurrence in the request
list (restricted to the matched fields), not in the iteration order of
the decoded source mapping. -/
theorem claim2_keys_in_request_order
    (decode : String → Except String YamlValue) (content fileName : String)
    (fl : List String) (kvs : Record)
    (h3 : 3 ≤ (pySplit content YAML_SEPARATOR).length)
    (h0 : pyStrip ((pySplit content YAML_SEPARATOR).headD ("")) = (""))
    (hdec : decode ((pySplit content YAML_SEPARATOR).getD 1 ("")) = .ok (.map kvs)) :
    ∀ r, (parse_frontmatter decode (.ok content) fileName fl).1 = some r →
      r.map Prod.fst = matchedKeys fl kvs := by
  intro r hr
  rw [parse_frontmatter_okSplit decode content fileName fl h3 h0] at hr
  simp only [hdec, extractFields_map_eq] at hr
  cases hmk : ((matchedKeys fl kvs).map (fun k => (k, dictGet kvs k))).isEmpty with
  | true =>
    rw [if_pos hmk] at hr
    cases hr
  | false =>
    rw [if_neg (by simp [hmk])] at hr
    have hr' : (matchedKeys fl kvs).map (fun k => (k, dictGet kvs k)) = r := by
      simpa using hr
    rw [← hr']
    simp [List.map_map, Function.comp_def]

/-- C2 witness: the amended theorem run on the counterexample input — the
concrete record keys equal the matched request fields in request order. -/
theorem claim2_witness :
    ([(("beta" : String), YamlValue.str ("y")), ("alpha", YamlValue.str ("x"))].map
      Prod.fst) =
      matchedKeys ["beta", "alpha"]
        [("alpha", YamlValue.str ("x")), ("beta", YamlValue.str ("y"))] :=
  claim2_keys_in_request_order decodeAB contentFM ("t.md") ["beta", "alpha"]
    [("alpha", .str ("x")), ("beta", .str ("y"))]
    (by decide) (by decide) rfl
    [(("beta" : String), YamlValue.str ("y")), ("alpha", YamlValue.str ("x"))] rfl

/-- C3 counterexample: frontmatter decoding to the YAML scalar string
"hello" with requested field "title" (no substring match): extract
returns Absent but emits NO diagnostic, refuting the claim that every
non-mapping decode yields a diagnostic on the error stream. -/
theorem claim3_counterexample :
    parse_frontmatter decodeHello (.ok contentFM) ("c.md") ["title"] = (none, []) ∧
    ¬ ((parse_frontmatter decodeHello (.ok contentFM) ("c.md") ["title"]).2 ≠ []) :=
  ⟨rfl, fun h => h rfl⟩

/-- C3 (amended): for frontmatter decoding to a non-mapping value,
extract always returns Absent; a diagnostic (ERROR-prefixed) is emitted
exactly when the field loop raises a TypeError — always for null, bool
and int once a field is requested, for a string only when some requested
field occurs as a substring, for a sequence only when some requested
field equals an element; otherwise the file is skipped silently. -/
theorem claim3_nonmapping
    (decode : String → Except String YamlValue) (content fileName : String)
    (fl : List String) (data : YamlValue)
    (h3 : 3 ≤ (pySplit content YAML_SEPARATOR).length)
    (h0 : pyStrip ((pySplit content YAML_SEPARATOR).headD ("")) = (""))
    (hdec : decode ((pySplit content YAML_SEPARATOR).getD 1 ("")) = .ok data)
    (hnm : data.isMap = false) :
    (parse_frontmatter decode (.ok content) fileName fl).1 = none ∧
    ((parse_frontmatter decode (.ok content) fileName fl).2 ≠ [] ↔
      nonMapRaises fl data = true) ∧
    (∀ line ∈ (parse_frontmatter decode (.ok content) fileName fl).2,
      ∃ t, line = "ERROR:" ++ t) := by
  rw [parse_frontmatter_okSplit decode content fileName fl h3 h0]
  cases hr : nonMapRaises fl data with
  | true =>
    rcases (extractFieldsGo_nonmap hnm fl []).1 hr with ⟨e, he⟩
    have hex : extractFields fl data = .error e := he
    simp only [hdec, hex]
    refine ⟨trivial, ?_, ?_⟩
    · simp
    · intro line hline
      rcases List.mem_singleton.mp hline with rfl
      exact ⟨_, errorLine_split fileName e⟩
  | false =>
    have hex : extractFields fl data = .ok [] :=
      (extractFieldsGo_nonmap hnm fl []).2 hr
    simp only [hdec, hex]
    exact ⟨rfl, by simp, by simp⟩

/-- C3 witness: the amended theorem run on a null-decoding file with one
requested field — Absent with a single ERROR-prefixed line. -/
theorem claim3_witness :
    (parse_frontmatter decodeNull (.ok contentFM) ("c.md") ["title"]).1 = none ∧
    ((parse_frontmatter decodeNull (.ok contentFM) ("c.md") ["title"]).2 ≠ [] ↔
      nonMapRaises ["title"] YamlValue.null = true) ∧
    (∀ line ∈ (parse_frontmatter decodeNull (.ok contentFM) ("c.md") ["title"]).2,
      ∃ t, line = "ERROR:" ++ t) :=
  claim3_nonmapping decodeNull contentFM ("c.md") ["title"] .null
    (by decide) (by decide) rfl rfl

/-- C10: when the frontmatter segment decodes to YAML null and at least
one field is requested, the membership test raises; parse_frontmatter
catches the TypeError, prints one ERROR-prefixed (and not WARN-prefixed)
diagnostic, and returns Absent. -/
theorem claim10_null_frontmatter
    (decode : String → Except String YamlValue) (content fileName : String)
    (f : String) (rest : List String)
    (h3 : 3 ≤ (pySplit content YAML_SEPARATOR).length)
    (h0 : pyStrip ((pySplit content YAML_SEPARATOR).headD ("")) = (""))
    (hdec : decode ((pySplit content YAML_SEPARATOR).getD 1 ("")) = .ok .null) :
    parse_frontmatter decode (.ok content) fileName (f :: rest) =
      (none, [errorLine fileName ("argument of type NoneType is not iterable")]) ∧
    (∃ t, errorLine fileName ("argument of type NoneType is not iterable") =
      "ERROR:" ++ t) ∧
    (∀ t, errorLine fileName ("argument of type NoneType is not iterable") ≠
      "WARN:" ++ t) := by
  rw [parse_frontmatter_okSplit decode content fileName (f :: rest) h3 h0]
  have hex : extractFields (f :: rest) .null =
      .error ("argument of type NoneType is not iterable") := rfl
  simp only [hdec, hex]
  refine ⟨trivial, ⟨_, errorLine_split fileName _⟩, ?_⟩
  intro t
  rw [errorLine_split]
  exact error_head_ne_warn _ t

/-- C10 witness: the theorem run on a concrete null-decoding file. -/
theorem claim10_witness :
    parse_frontmatter decodeNull (.ok contentFM) ("c.md") ["title"] =
      (none, [errorLine ("c.md") ("argument of type NoneType is not iterable")]) ∧
    (∃ t, errorLine ("c.md") ("argument of type NoneType is not iterable") =
      "ERROR:" ++ t) ∧
    (∀ t, errorLine ("c.md") ("argument of type NoneType is not iterable") ≠
      "WARN:" ++ t) :=
  claim10_null_frontmatter decodeNull contentFM ("c.md") ("title") []
    (by decide) (by decide) rfl

/-- C4: parse_frontmatter splits the content on the literal separator
"---" (uncapped); when the split has fewer than 3 segments or a
non-blank lead segment it returns Absent with exactly one WARN-prefixed
diagnostic, and otherwise its result depends only on segment 1 — two
contents with equal segment 1 give equal results, so everything after
the second separator is ignored. -/
theorem claim4_split_policy
    (decode : String → Except String YamlValue) (fileName : String)
    (fl : List String) :
    (∀ content, ((pySplit content YAML_SEPARATOR).length < 3 ∨
        pyStrip ((pySplit content YAML_SEPARATOR).headD ("")) ≠ ("")) →
      parse_frontmatter decode (.ok content) fileName fl =
        (none, [warnLine fileName]) ∧
      ∃ t, warnLine fileName = "WARN:" ++ t) ∧
    (∀ c₁ c₂, 3 ≤ (pySplit c₁ YAML_SEPARATOR).length →
      3 ≤ (pySplit c₂ YAML_SEPARATOR).length →
      pyStrip ((pySplit c₁ YAML_SEPARATOR).headD ("")) = ("") →
      pyStrip ((pySplit c₂ YAML_SEPARATOR).headD ("")) = ("") →
      (pySplit c₁ YAML_SEPARATOR).getD 1 ("") = (pySplit c₂ YAML_SEPARATOR).getD 1 ("") →
      parse_frontmatter decode (.ok c₁) fileName fl =
        parse_frontmatter decode (.ok c₂) fileName fl) := by
  constructor
  · intro content hc
    constructor
    · simp only [parse_frontmatter, parse_frontmatter_body, if_pos hc]
    · exact ⟨_, warnLine_split fileName⟩
  · intro c₁ c₂ h3a h3b h0a h0b hseg
    rw [parse_frontmatter_okSplit decode c₁ fileName fl h3a h0a,
      parse_frontmatter_okSplit decode c₂ fileName fl h3b h0b, hseg]

/-- C4 witness: a file with no separator at all gets the WARN diagnostic
and Absent; two files sharing frontmatter segment 1 but with different
bodies (one holding further separators) give identical results. -/
theorem claim4_witness :
    (parse_frontmatter decodeAB (.ok ("nofront")) ("c.md") ["alpha"] =
      (none, [warnLine ("c.md")]) ∧
      ∃ t, warnLine ("c.md") = "WARN:" ++ t) ∧
    parse_frontmatter decodeAB (.ok ("---\nfm\n---\nbodyA")) ("c.md") ["alpha"] =
      parse_frontmatter decodeAB (.ok ("---\nfm\n---\nbodyB---\n---more")) ("c.md") ["alpha"] :=
  ⟨(claim4_split_policy decodeAB ("c.md") ["alpha"]).1 ("nofront") (by decide),
   (claim4_split_policy decodeAB ("c.md") ["alpha"]).2
     ("---\nfm\n---\nbodyA") ("---\nfm\n---\nbodyB---\n---more")
     (by decide) (by decide) (by decide) (by decide) (by decide)⟩

/-- C5: the scan result is invariant under permuting the enumeration of
the directory (filenames being distinct), the scanned list is sorted by
filename and is a permutation of the matched .md entries, and the record
sequence is exactly the per-file extraction along that sorted list. -/
theorem claim5_order
    (decode : String → Except String YamlValue) (fp : List FileEntry)
    (fl : List String) (sc₁ sc₂ : List FileEntry)
    (hperm : sc₁.Perm sc₂) (hnd : (sc₁.map FileEntry.name).Nodup) :
    parse_dir decode fp sc₁ fl = parse_dir decode fp sc₂ fl ∧
    (sortedMd sc₁).Sorted entryLe ∧
    (sortedMd sc₁).Perm (globMd sc₁) ∧
    (parse_dir decode fp sc₁ fl).1.getD [] =
      (sortedMd sc₁).filterMap (fileRecord decode fl) := by
  refine ⟨?_, sortedMd_sorted sc₁, sortedMd_perm sc₁,
    parse_dir_records decode fp sc₁ fl⟩
  have hs : sortedMd sc₁ = sortedMd sc₂ := sortedMd_eq_of_perm hperm hnd
  rw [parse_dir_eq, parse_dir_eq, hs]

/-- C5 witness: the theorem run on a two-file directory enumerated in
reversed order. -/
theorem claim5_witness :
    parse_dir decodeTitle [] [entryB, entryA] ["title"] =
      parse_dir decodeTitle [] [entryA, entryB] ["title"] ∧
    (sortedMd [entryB, entryA]).Sorted entryLe ∧
    (sortedMd [entryB, entryA]).Perm (globMd [entryB, entryA]) ∧
    (parse_dir decodeTitle [] [entryB, entryA] ["title"]).1.getD [] =
      (sortedMd [entryB, entryA]).filterMap (fileRecord decodeTitle ["title"]) :=
  claim5_order decodeTitle [] ["title"] [entryB, entryA] [entryA, entryB]
    (List.Perm.swap entryA entryB []) (by decide)

/-- C6: records are never empty: parse_frontmatter never returns an empty
record, and every record of a returned config map is non-empty. -/
theorem claim6_nonempty
    (decode : String → Except String YamlValue) (rr : Except String String)
    (fileName : String) (fl : List String) (fp sc : List FileEntry) :
    (∀ r, (parse_frontmatter decode rr fileName fl).1 = some r → r ≠ []) ∧
    (∀ all_data, (parse_dir decode fp sc fl).1 = some all_data →
      ∀ rec ∈ all_data, rec ≠ []) := by
  constructor
  · exact fun r h => parse_frontmatter_some_nonempty decode rr fileName fl r h
  · intro all_data hsome rec hrec
    rw [parse_dir_eq] at hsome
    cases h : ((sortedMd sc).filterMap (fileRecord decode fl)).isEmpty with
    | true =>
      rw [if_pos h] at hsome
      cases hsome
    | false =>
      rw [if_neg (by simp [h])] at hsome
      have hall : (sortedMd sc).filterMap (fileRecord decode fl) = all_data := by
        simpa using hsome
      rw [← hall] at hrec
      rcases List.mem_filterMap.mp hrec with ⟨e, _, hfr⟩
      exact fileRecord_some hfr

/-- C6 witness: a concrete extracted record obtained from the theorem is
non-empty. -/
theorem claim6_witness :
    ([(("title" : String), YamlValue.str ("t"))] : Record) ≠ [] :=
  (claim6_nonempty decodeTitle (.ok contentFM) ("a.md") ["title"] [] []).1
    [(("title" : String), YamlValue.str ("t"))] rfl

/-- C7 counterexample: on an empty scan the script prints the notice and
then yaml.dump of the None result — stdout is not the notice alone but
carries a YAML null document after it, refuting "instead of a YAML
document". -/
theorem claim7_counterexample :
    (mainRun decodeTitle dumpStub (some []) ("d") ["title"]).2.1 =
      [noticeLine, "null\n...\n"] ∧
    ¬ ((mainRun decodeTitle dumpStub (some []) ("d") ["title"]).2.1 = [noticeLine]) :=
  ⟨rfl, by decide⟩

/-- C7 (amended): when the scan yields no records, standard output
carries the plain-text notice followed by the YAML serialization of the
null result (main dumps parse_dir's return value unconditionally), and
the process exits with status 0. -/
theorem claim7_empty_result
    (decode : String → Except String YamlValue) (dumpSome : List Record → String)
    (entries : List FileEntry) (dirName : String) (fl : List String)
    (hempty : ((sortedMd entries).filterMap (fileRecord decode fl)).isEmpty = true) :
    mainRun decode dumpSome (some entries) dirName fl =
      (0, [noticeLine, "null\n...\n"],
        ((sortedMd entries).map (fileDiags decode fl)).flatten) := by
  simp only [mainRun]
  rw [parse_dir_eq, if_pos hempty]
  rfl

/-- C7 witness: the amended theorem run on an empty directory. -/
theorem claim7_witness :
    mainRun decodeTitle dumpStub (some []) ("d") ["title"] =
      (0, [noticeLine, "null\n...\n"],
        ((sortedMd ([] : List FileEntry)).map
          (fileDiags decodeTitle ["title"])).flatten) :=
  claim7_empty_result decodeTitle dumpStub [] ("d") ["title"] (by decide)

/-- C8 counterexample: parse_dir invoked with directory parameter
[entryA] produces different results for different values of the
outer-scope scanpath, so its result is not a function of its own
parameters: with scanpath [] it finds nothing although its parameter
holds a matching file. -/
theorem claim8_counterexample :
    (parse_dir decodeTitle [entryA] ([] : List FileEntry) ["title"]).1 = none ∧
    (parse_dir decodeTitle [entryA] [entryA] ["title"]).1.isSome = true ∧
    ¬ ((parse_dir decodeTitle [entryA] ([] : List FileEntry) ["title"]).1.isSome =
       (parse_dir decodeTitle [entryA] [entryA] ["title"]).1.isSome) :=
  ⟨rfl, rfl, by decide⟩

/-- C8 (amended): parse_dir ignores its own directory parameter and scans
the outer-scope scanpath variable: its result is independent of the
parameter, and the records are the per-file extraction over the sorted
matched .md entries of scanpath. -/
theorem claim8_scanpath_only
    (decode : String → Except String YamlValue) (fp₁ fp₂ sc : List FileEntry)
    (fl : List String) :
    parse_dir decode fp₁ sc fl = parse_dir decode fp₂ sc fl ∧
    (parse_dir decode fp₁ sc fl).1.getD [] =
      (sortedMd sc).filterMap (fileRecord decode fl) :=
  ⟨rfl, parse_dir_records decode fp₁ sc fl⟩

/-- C9: a raised per-file exception is caught at the file boundary —
parse_frontmatter turns any raising body into Absent plus one ERROR line
— and the scan always completes: its diagnostics and records are the
concatenation over every sorted matched file, independent of failures. -/
theorem claim9_failures_contained
    (decode : String → Except String YamlValue) (rr : Except String String)
    (fileName : String) (fl : List String) (fp sc : List FileEntry) :
    (∀ e, parse_frontmatter_body decode rr fileName fl = .error e →
      parse_frontmatter decode rr fileName fl = (none, [errorLine fileName e])) ∧
    (parse_dir decode fp sc fl).2.2 =
      ((sortedMd sc).map (fileDiags decode fl)).flatten ∧
    (parse_dir decode fp sc fl).1.getD [] =
      (sortedMd sc).filterMap (fileRecord decode fl) := by
  refine ⟨?_, parse_dir_stderr decode fp sc fl, parse_dir_records decode fp sc fl⟩
  intro e he
  simp only [parse_frontmatter, he]

/-- C9 witness: a file whose read raises is reported as one ERROR line
and contributes Absent. -/
theorem claim9_witness :
    parse_frontmatter decodeTitle (.error ("Errno 2 No such file or directory"))
      ("z.md") ["title"] =
      (none, [errorLine ("z.md") ("Errno 2 No such file or directory")]) :=
  (claim9_failures_contained decodeTitle
    (.error ("Errno 2 No such file or directory")) ("z.md") ["title"] [] []).1
    ("Errno 2 No such file or directory") rfl

end SchemaUtils
